import Mathlib

/-!
# Verification of the daemon-ai-app suggestion engine

A shallow embedding of the suggestion-lifecycle logic of the `DaemonAIApp`
React component (the frontend page component).  The component keeps four
pieces of state that matter to the engine: the document `text`, the
`suggestions` list, the `suggestionQueue` list and the `selectedSuggestion`
pointer.  JavaScript object identity (`s !== suggestion`) is modelled by a
synthetic object id `oid`: every object created at runtime receives a fresh
`oid` (threaded through the state as `fresh`), and spread copies
(`{ ...s, is_outdated: true }`) receive fresh ids because they are new
objects, distinct by reference from the originals.
-/

/-- One suggestion, as held in component state.  `oid` models JavaScript
reference identity; `daemonId`, `startIndex`, `endIndex` and `isOutdated`
mirror the `daemon_id`, `start_index`, `end_index` and `is_outdated` fields
(the last three optional in the source; an absent `is_outdated` is falsy,
modelled as `false`). -/
structure Sugg where
  oid : Nat
  daemonId : Nat
  startIndex : Option Nat
  endIndex : Option Nat
  isOutdated : Bool
deriving DecidableEq, Repr

/-- The component state relevant to the suggestion engine. -/
structure EngineState where
  text : String
  suggestions : List Sugg
  suggestionQueue : List Sugg
  selectedSuggestion : Option Sugg
  loading : Bool
  connectionError : Bool
  deleteError : Bool
  fresh : Nat
deriving DecidableEq, Repr

/-- JavaScript `Array.prototype.findIndex` (position of the first match),
returning the position rather than `-1`; `findIndexJS` wraps it with JS's
`-1`-on-absence convention. -/
def findIdxAux (p : Sugg → Bool) : List Sugg → Option Nat
  | [] => none
  | s :: rest => if p s then some 0 else (findIdxAux p rest).map (· + 1)

/-- JavaScript `findIndex`: `-1` when no element matches. -/
def findIndexJS (p : Sugg → Bool) (l : List Sugg) : Int :=
  match findIdxAux p l with
  | some n => n
  | none => -1

/-- JavaScript array indexing `arr[i]` with an `Int` index: out-of-range
(including negative) access yields `undefined`, modelled as `none`. -/
def jsIndex (l : List Sugg) (i : Int) : Option Sugg :=
  if 0 ≤ i then l[i.toNat]? else none

/-- `.map (s => ({ ...s, is_outdated: true }))`: each element is copied into
a new object (fresh `oid`) with `isOutdated` set.  Returns the new list and
the next unused id. -/
def outdateFreshAll : Nat → List Sugg → List Sugg × Nat
  | f, [] => ([], f)
  | f, s :: rest =>
    let tail := outdateFreshAll (f + 1) rest
    ({ s with oid := f, isOutdated := true } :: tail.1, tail.2)

/-- The payload of a successful `/suggestion/{id}` response, as far as the
engine state is concerned. -/
structure SuggestionResponse where
  daemonId : Nat
  startIndex : Option Nat
  endIndex : Option Nat
deriving DecidableEq, Repr

/-- The suggestion object built from a response: a fresh object, with
`is_outdated` absent (falsy). -/
def mkSugg (f : Nat) (r : SuggestionResponse) : Sugg :=
  { oid := f, daemonId := r.daemonId, startIndex := r.startIndex,
    endIndex := r.endIndex, isOutdated := false }

/-- `text.trim()` is the empty string (falsy) iff every character of the
text is whitespace. -/
def jsTrimEmpty (s : String) : Bool :=
  s.data.all (fun c => c.isWhitespace)

/-- The guard at the top of `getSuggestionFromDaemon`:
`if (!text.trim()) return` — a request is dispatched iff the trimmed
document text is nonempty (a nonempty string is truthy). -/
def getSuggestionDispatches (st : EngineState) : Bool :=
  !(jsTrimEmpty st.text)

/-- The success continuation of `getSuggestionFromDaemon`: append the new
suggestion to `suggestions` and to `suggestionQueue`, and select it. -/
def onSuggestionSuccess (st : EngineState) (r : SuggestionResponse) : EngineState :=
  let suggestion := mkSugg st.fresh r
  { st with
    suggestions := st.suggestions ++ [suggestion]
    suggestionQueue := st.suggestionQueue ++ [suggestion]
    selectedSuggestion := some suggestion
    loading := false
    fresh := st.fresh + 1 }

/-- `handleApplySuggestion`, with the rewrite collaborator's outcome made
explicit: `.ok newText` is a successful `/apply-suggestion` response
carrying `improved_text`; `.error ()` is a failed fetch or non-ok status
(the `catch` branch sets a connection error and the `finally` clears
`loading`; no other state is touched).  On success, the applied suggestion
is removed by identity from both lists, every remaining member is copied
with `is_outdated: true`, and the selection moves to the member before the
applied one's former position, clamped. -/
def handleApplySuggestion (st : EngineState) (suggestion : Sugg)
    (result : Except Unit String) : EngineState :=
  match result with
  | .error _ => { st with connectionError := true, loading := false }
  | .ok newText =>
    let sugg2 := outdateFreshAll st.fresh
      (st.suggestions.filter (fun s => !(s.oid == suggestion.oid)))
    let currentIndex : Int :=
      findIndexJS (fun s => s.oid == suggestion.oid) st.suggestionQueue
    let queue2 := outdateFreshAll sugg2.2
      (st.suggestionQueue.filter (fun s => !(s.oid == suggestion.oid)))
    let newQueue := queue2.1
    let nextIndex0 : Int := currentIndex - 1
    let nextIndex1 : Int := if nextIndex0 < 0 then 0 else nextIndex0
    let nextIndex : Int :=
      if (newQueue.length : Int) ≤ nextIndex1 then (newQueue.length : Int) - 1
      else nextIndex1
    let nextSuggestion : Option Sugg :=
      if 0 < newQueue.length then jsIndex newQueue nextIndex else none
    { st with
      text := newText
      suggestions := sugg2.1
      suggestionQueue := newQueue
      selectedSuggestion := nextSuggestion
      loading := false
      fresh := queue2.2 }

/-- `handleRejectSuggestion`: remove the suggestion by identity from both
lists; select the new first queue member, or null if empty.  Pure local
update, no collaborator call. -/
def handleRejectSuggestion (st : EngineState) (suggestion : Sugg) : EngineState :=
  let newQueue := st.suggestionQueue.filter (fun s => !(s.oid == suggestion.oid))
  { st with
    suggestions := st.suggestions.filter (fun s => !(s.oid == suggestion.oid))
    suggestionQueue := newQueue
    selectedSuggestion := match newQueue with
      | [] => none
      | q :: _ => some q }

/-- `handleDismissSuggestion`: textually identical body to
`handleRejectSuggestion` in the source. -/
def handleDismissSuggestion (st : EngineState) (suggestion : Sugg) : EngineState :=
  let newQueue := st.suggestionQueue.filter (fun s => !(s.oid == suggestion.oid))
  { st with
    suggestions := st.suggestions.filter (fun s => !(s.oid == suggestion.oid))
    suggestionQueue := newQueue
    selectedSuggestion := match newQueue with
      | [] => none
      | q :: _ => some q }

/-- The `response.ok` branch of `deleteDaemon`: filter both lists by
`daemon_id`, and clear the selection only when the selected suggestion's
`daemon_id` matches (it is NOT re-pointed at the new first member). -/
def deleteDaemonSuccess (st : EngineState) (daemonId : Nat) : EngineState :=
  { st with
    suggestions := st.suggestions.filter (fun s => !(s.daemonId == daemonId))
    suggestionQueue := st.suggestionQueue.filter (fun s => !(s.daemonId == daemonId))
    selectedSuggestion := match st.selectedSuggestion with
      | some s => if s.daemonId == daemonId then none else some s
      | none => none }

/-- The `response.status === 404` branch of `deleteDaemon`: only
`setShowDeleteConfirm(null)` and `setDeleteError(...)` run; no suggestion
state is touched. -/
def deleteDaemonNotFound (st : EngineState) (_daemonId : Nat) : EngineState :=
  { st with deleteError := true }

/-- `clearHighlights`. -/
def clearHighlights (st : EngineState) : EngineState :=
  { st with suggestions := [], suggestionQueue := [], selectedSuggestion := none }

/-- `goToNextSuggestion`. -/
def goToNextSuggestion (st : EngineState) : EngineState :=
  match st.selectedSuggestion with
  | none => st
  | some sel =>
    if st.suggestionQueue.length ≤ 1 then st
    else
      let currentIndex : Int :=
        findIndexJS (fun s => s.oid == sel.oid) st.suggestionQueue
      let nextIndex : Int := (currentIndex + 1) % (st.suggestionQueue.length : Int)
      { st with selectedSuggestion := jsIndex st.suggestionQueue nextIndex }

/-- `goToPreviousSuggestion`. -/
def goToPreviousSuggestion (st : EngineState) : EngineState :=
  match st.selectedSuggestion with
  | none => st
  | some sel =>
    if st.suggestionQueue.length ≤ 1 then st
    else
      let currentIndex : Int :=
        findIndexJS (fun s => s.oid == sel.oid) st.suggestionQueue
      let prevIndex : Int :=
        if currentIndex == 0 then (st.suggestionQueue.length : Int) - 1
        else currentIndex - 1
      { st with selectedSuggestion := jsIndex st.suggestionQueue prevIndex }

/-- The `onClick` of the highlighted span inside `renderHighlightedText`:
it runs only when suggestions exist and the selected suggestion has both
span indices; it looks up, in the `suggestions` array, the first
suggestion with the selected suggestion's `daemon_id`, and selects it. -/
def highlightSpanClick (st : EngineState) : EngineState :=
  match st.selectedSuggestion with
  | none => st
  | some sel =>
    if st.suggestions.isEmpty then st
    else
      match sel.startIndex, sel.endIndex with
      | some _, some _ =>
        match st.suggestions.find? (fun s => s.daemonId == sel.daemonId) with
        | some suggestion => { st with selectedSuggestion := some suggestion }
        | none => st
      | _, _ => st

/-- The user-triggerable engine events reachable through the rendered UI.
`applyOk`/`applyErr`, `reject` and `dismiss` act on the currently selected
suggestion (the panel's buttons exist only for it); `request` is the
arrival of a successful suggestion response. -/
inductive Op where
  | request (r : SuggestionResponse)
  | applyOk (newText : String)
  | applyErr
  | reject
  | dismiss
  | deleteOk (daemonId : Nat)
  | deleteNotFound (daemonId : Nat)
  | clear
  | navNext
  | navPrev
  | highlightClick
deriving DecidableEq, Repr

/-- One engine transition. -/
def step (st : EngineState) : Op → EngineState
  | .request r => onSuggestionSuccess st r
  | .applyOk newText =>
    match st.selectedSuggestion with
    | some s => handleApplySuggestion st s (.ok newText)
    | none => st
  | .applyErr =>
    match st.selectedSuggestion with
    | some s => handleApplySuggestion st s (.error ())
    | none => st
  | .reject =>
    match st.selectedSuggestion with
    | some s => handleRejectSuggestion st s
    | none => st
  | .dismiss =>
    match st.selectedSuggestion with
    | some s => handleDismissSuggestion st s
    | none => st
  | .deleteOk d => deleteDaemonSuccess st d
  | .deleteNotFound d => deleteDaemonNotFound st d
  | .clear => clearHighlights st
  | .navNext => goToNextSuggestion st
  | .navPrev => goToPreviousSuggestion st
  | .highlightClick => highlightSpanClick st

/-- Run a sequence of engine events. -/
def runOps (st : EngineState) (ops : List Op) : EngineState :=
  ops.foldl step st

/-- The component's initial state for a given initial document text
(the source starts from `SAMPLE_TEXT` with empty lists and no selection). -/
def initState (t : String) : EngineState :=
  { text := t, suggestions := [], suggestionQueue := [], selectedSuggestion := none,
    loading := false, connectionError := false, deleteError := false, fresh := 0 }

/-- The spec's selection invariant: the selection, when non-null, is a
member (by identity) of the current suggestion queue. -/
def selInQueue (st : EngineState) : Bool :=
  match st.selectedSuggestion with
  | none => true
  | some s => decide (s ∈ st.suggestionQueue)

/-- The data of a suggestion apart from its object identity and its
lifecycle flag: daemon and span. -/
def suggData (s : Sugg) : Nat × Option Nat × Option Nat :=
  (s.daemonId, s.startIndex, s.endIndex)

/-! ## Helper lemmas -/

/-- When object ids are distinct, removing all non-matching elements by
`filter` is the same as erasing the first (unique) match. -/
theorem filter_ne_eq_eraseP (l : List Sugg) (k : Nat)
    (hnd : (l.map Sugg.oid).Nodup) :
    l.filter (fun s => !(s.oid == k)) = l.eraseP (fun s => s.oid == k) := by
  induction l with
  | nil => rfl
  | cons a t ih =>
    simp only [List.map_cons, List.nodup_cons] at hnd
    by_cases hk : a.oid = k
    · have hall : ∀ s ∈ t, (!(s.oid == k)) = true := by
        intro s hs
        have hne : s.oid ≠ k := by
          intro he
          exact hnd.1 (by rw [hk, ← he]; exact List.mem_map_of_mem Sugg.oid hs)
        simp [hne]
      simp [List.filter_cons, List.eraseP_cons, hk, List.filter_eq_self.mpr hall]
    · simp [List.filter_cons, List.eraseP_cons, hk, ih hnd.2]

/-- With distinct object ids, `findIndex` on the id of the element at
position `i` returns `i`. -/
theorem findIdxAux_oid_eq (l : List Sugg) (i : Nat) (S : Sugg)
    (hnd : (l.map Sugg.oid).Nodup) (h : l[i]? = some S) :
    findIdxAux (fun s => s.oid == S.oid) l = some i := by
  induction l generalizing i with
  | nil => simp at h
  | cons a t ih =>
    simp only [List.map_cons, List.nodup_cons] at hnd
    cases i with
    | zero =>
      have : a = S := by simpa using h
      subst this
      simp [findIdxAux]
    | succ n =>
      have h' : t[n]? = some S := by simpa using h
      have hS : S ∈ t := List.getElem?_mem h'
      have ha : ¬(a.oid = S.oid) := by
        intro he
        exact hnd.1 (by rw [he]; exact List.mem_map_of_mem Sugg.oid hS)
      simp [findIdxAux, ha, ih n hnd.2 h']

/-- The copy-and-outdate map preserves every member's data (daemon and
span). -/
theorem outdateFreshAll_map_data (f : Nat) (l : List Sugg) :
    ((outdateFreshAll f l).1).map suggData = l.map suggData := by
  induction l generalizing f with
  | nil => rfl
  | cons a t ih => simp [outdateFreshAll, suggData, ih]

/-- Every member of the copy-and-outdate map has `isOutdated = true`. -/
theorem outdateFreshAll_outdated (f : Nat) (l : List Sugg) :
    ∀ s ∈ (outdateFreshAll f l).1, s.isOutdated = true := by
  induction l generalizing f with
  | nil => simp [outdateFreshAll]
  | cons a t ih =>
    intro s hs
    simp only [outdateFreshAll, List.mem_cons] at hs
    rcases hs with rfl | hs
    · rfl
    · exact ih (f + 1) s hs

/-- The copy-and-outdate map preserves length. -/
theorem outdateFreshAll_length (f : Nat) (l : List Sugg) :
    (outdateFreshAll f l).1.length = l.length := by
  induction l generalizing f with
  | nil => rfl
  | cons a t ih => simp [outdateFreshAll, ih]

/-- `l[i]? = some a` forces `i` in range. -/
theorem getElem?_lt_length (l : List Sugg) (i : Nat) (a : Sugg) (h : l[i]? = some a) :
    i < l.length := by
  by_contra hge
  rw [List.getElem?_eq_none (by omega)] at h
  simp at h

/-! ## Shared concrete example states -/

/-- A live suggestion from daemon 1 with span `[0,1)`. -/
def sampleA : Sugg :=
  { oid := 0, daemonId := 1, startIndex := some 0, endIndex := some 1, isOutdated := false }

/-- A live suggestion from daemon 2 with span `[2,3)`. -/
def sampleB : Sugg :=
  { oid := 1, daemonId := 2, startIndex := some 2, endIndex := some 3, isOutdated := false }

/-- A state with two queued suggestions, the second selected. -/
def sampleState : EngineState :=
  { text := "sample", suggestions := [sampleA, sampleB],
    suggestionQueue := [sampleA, sampleB], selectedSuggestion := some sampleB,
    loading := false, connectionError := false, deleteError := false, fresh := 2 }

/-! ## Claim theorems -/

/-- C1: a successful `applySuggestion(S)` for a queue member `S` removes
exactly `S` from the queue (length drops by one, and the remaining
members' data, in order, is the original queue with `S`'s entry erased)
and sets `isOutdated = true` on every remaining member. -/
theorem applySuggestion_removes_applied_and_outdates_rest
    (st : EngineState) (S : Sugg) (t : String)
    (hnd : (st.suggestionQueue.map Sugg.oid).Nodup) (hmem : S ∈ st.suggestionQueue) :
    ((handleApplySuggestion st S (.ok t)).suggestionQueue.map suggData
        = (st.suggestionQueue.eraseP (fun s => s.oid == S.oid)).map suggData)
    ∧ (∀ s ∈ (handleApplySuggestion st S (.ok t)).suggestionQueue, s.isOutdated = true)
    ∧ (handleApplySuggestion st S (.ok t)).suggestionQueue.length + 1
        = st.suggestionQueue.length := by
  have hfe := filter_ne_eq_eraseP st.suggestionQueue S.oid hnd
  refine ⟨?_, ?_, ?_⟩
  · simp only [handleApplySuggestion]
    rw [outdateFreshAll_map_data, hfe]
  · simp only [handleApplySuggestion]
    exact outdateFreshAll_outdated _ _
  · simp only [handleApplySuggestion]
    rw [outdateFreshAll_length, hfe]
    exact List.length_eraseP_add_one hmem (by simp)

/-- Witness for C1 at a concrete two-member queue, applying the first
member. -/
theorem applySuggestion_removes_applied_and_outdates_rest_witness :
    ((sampleState.suggestionQueue.map Sugg.oid).Nodup
      ∧ sampleA ∈ sampleState.suggestionQueue)
    ∧ (((handleApplySuggestion sampleState sampleA (.ok "t")).suggestionQueue.map suggData
        = (sampleState.suggestionQueue.eraseP (fun s => s.oid == sampleA.oid)).map suggData)
      ∧ (∀ s ∈ (handleApplySuggestion sampleState sampleA (.ok "t")).suggestionQueue,
          s.isOutdated = true)
      ∧ (handleApplySuggestion sampleState sampleA (.ok "t")).suggestionQueue.length + 1
        = sampleState.suggestionQueue.length) :=
  ⟨⟨by decide, by decide⟩,
    applySuggestion_removes_applied_and_outdates_rest sampleState sampleA "t"
      (by decide) (by decide)⟩

/-- C2: after a successful apply of the suggestion at queue position `i`,
the selection is the member now at position `max(i-1, 0)` of the shrunken
queue (`i - 1` in truncated subtraction), and null exactly when the queue
became empty (`getElem?` of the empty list). -/
theorem applySuggestion_selects_previous_position
    (st : EngineState) (S : Sugg) (t : String) (i : Nat)
    (hnd : (st.suggestionQueue.map Sugg.oid).Nodup)
    (hq : st.suggestionQueue[i]? = some S) :
    (handleApplySuggestion st S (.ok t)).selectedSuggestion
      = (handleApplySuggestion st S (.ok t)).suggestionQueue[i - 1]? := by
  have hlt : i < st.suggestionQueue.length := getElem?_lt_length _ _ _ hq
  have hmem : S ∈ st.suggestionQueue := List.getElem?_mem hq
  have hfind : findIndexJS (fun s => s.oid == S.oid) st.suggestionQueue = (i : Int) := by
    unfold findIndexJS
    rw [findIdxAux_oid_eq _ i S hnd hq]
  have hfe := filter_ne_eq_eraseP st.suggestionQueue S.oid hnd
  have hlen2 : (handleApplySuggestion st S (.ok t)).suggestionQueue.length + 1
      = st.suggestionQueue.length := by
    simp only [handleApplySuggestion]
    rw [outdateFreshAll_length, hfe]
    exact List.length_eraseP_add_one hmem (by simp)
  simp only [handleApplySuggestion] at hlen2 ⊢
  rw [hfind]
  set Q2 := (outdateFreshAll
      (outdateFreshAll st.fresh
        (st.suggestions.filter fun s => !(s.oid == S.oid))).2
      (st.suggestionQueue.filter fun s => !(s.oid == S.oid))).1 with hQ2
  rcases Nat.eq_zero_or_pos Q2.length with hz | hpos
  · rw [List.length_eq_zero] at hz
    simp [hz]
  · have h1 : 0 < Q2.length := hpos
    simp only [if_pos h1]
    cases i with
    | zero =>
      have hne : Q2 ≠ [] := by
        intro he
        rw [he] at h1
        simp at h1
      simp only [jsIndex]
      norm_num [hne]
    | succ m =>
      have hm : m < Q2.length := by omega
      have e0 : ((m + 1 : Nat) : Int) - 1 = (m : Int) := by push_cast; omega
      rw [e0]
      have hc1 : ¬((m : Int) < 0) := by omega
      have hc2 : ¬((Q2.length : Int) ≤ (m : Int)) := by omega
      simp only [if_neg hc1, if_neg hc2, jsIndex]
      rw [if_pos (by omega)]
      norm_num

/-- Witness for C2: applying the member at position 1 of a two-member
queue selects the member now at position 0. -/
theorem applySuggestion_selects_previous_position_witness :
    ((sampleState.suggestionQueue.map Sugg.oid).Nodup
      ∧ sampleState.suggestionQueue[1]? = some sampleB)
    ∧ (handleApplySuggestion sampleState sampleB (.ok "t")).selectedSuggestion
      = (handleApplySuggestion sampleState sampleB (.ok "t")).suggestionQueue[1 - 1]? :=
  ⟨⟨by decide, by decide⟩,
    applySuggestion_selects_previous_position sampleState sampleB "t" 1
      (by decide) (by decide)⟩

/-- A two-armed match on a list returning its first element is `head?`. -/
theorem match_head (l : List Sugg) :
    (match l with | [] => (none : Option Sugg) | q :: _ => some q) = l.head? := by
  cases l <;> rfl

/-- Counterexample to C4 as stated: with an all-whitespace (here empty)
document text, a daemon click dispatches no request at all
(`if (!text.trim()) return`). -/
theorem requestSuggestion_blank_text_no_dispatch_cex :
    getSuggestionDispatches (initState "") = false := by decide

/-- C4 (amended): for a daemon click with non-whitespace document text a
request is dispatched, and each successful response is appended at the
tail of the queue and becomes the selection, so of two in-flight requests
the later arrival wins the selection. -/
theorem requestSuggestion_appends_and_selects_latest
    (st : EngineState) (r1 r2 : SuggestionResponse)
    (h : jsTrimEmpty st.text = false) :
    getSuggestionDispatches st = true
    ∧ (onSuggestionSuccess st r1).suggestionQueue
        = st.suggestionQueue ++ [mkSugg st.fresh r1]
    ∧ (onSuggestionSuccess st r1).selectedSuggestion = some (mkSugg st.fresh r1)
    ∧ (onSuggestionSuccess (onSuggestionSuccess st r1) r2).suggestionQueue
        = st.suggestionQueue ++ [mkSugg st.fresh r1, mkSugg (st.fresh + 1) r2]
    ∧ (onSuggestionSuccess (onSuggestionSuccess st r1) r2).selectedSuggestion
        = some (mkSugg (st.fresh + 1) r2) := by
  refine ⟨?_, ?_, rfl, ?_, rfl⟩
  · simp [getSuggestionDispatches, h]
  · rfl
  · simp [onSuggestionSuccess]

/-- Witness for the amended C4 at the initial state with two responses
arriving in order. -/
theorem requestSuggestion_appends_and_selects_latest_witness :
    jsTrimEmpty (initState "sample").text = false
    ∧ (getSuggestionDispatches (initState "sample") = true
      ∧ (onSuggestionSuccess (initState "sample") ⟨1, some 0, some 1⟩).suggestionQueue
          = (initState "sample").suggestionQueue
            ++ [mkSugg (initState "sample").fresh ⟨1, some 0, some 1⟩]
      ∧ (onSuggestionSuccess (initState "sample") ⟨1, some 0, some 1⟩).selectedSuggestion
          = some (mkSugg (initState "sample").fresh ⟨1, some 0, some 1⟩)
      ∧ (onSuggestionSuccess (onSuggestionSuccess (initState "sample") ⟨1, some 0, some 1⟩)
            ⟨2, none, none⟩).suggestionQueue
          = (initState "sample").suggestionQueue
            ++ [mkSugg (initState "sample").fresh ⟨1, some 0, some 1⟩,
                mkSugg ((initState "sample").fresh + 1) ⟨2, none, none⟩]
      ∧ (onSuggestionSuccess (onSuggestionSuccess (initState "sample") ⟨1, some 0, some 1⟩)
            ⟨2, none, none⟩).selectedSuggestion
          = some (mkSugg ((initState "sample").fresh + 1) ⟨2, none, none⟩)) :=
  ⟨by decide,
    requestSuggestion_appends_and_selects_latest (initState "sample")
      ⟨1, some 0, some 1⟩ ⟨2, none, none⟩ (by decide)⟩

/-- C5: when the rewrite call of `applySuggestion` fails, nothing changes:
document text, queue, `suggestions`, every `isOutdated` flag (the lists are
untouched), and the selection, which remains the same pending suggestion. -/
theorem applySuggestion_failure_no_state_change (st : EngineState) (S : Sugg)
    (hsel : st.selectedSuggestion = some S) (hp : S.isOutdated = false) :
    (handleApplySuggestion st S (.error ())).text = st.text
    ∧ (handleApplySuggestion st S (.error ())).suggestionQueue = st.suggestionQueue
    ∧ (handleApplySuggestion st S (.error ())).suggestions = st.suggestions
    ∧ (handleApplySuggestion st S (.error ())).selectedSuggestion = some S
    ∧ S.isOutdated = false := by
  refine ⟨rfl, rfl, rfl, ?_, hp⟩
  simp [handleApplySuggestion, hsel]

/-- Witness for C5 at a concrete state with a pending selected
suggestion. -/
theorem applySuggestion_failure_no_state_change_witness :
    (sampleState.selectedSuggestion = some sampleB ∧ sampleB.isOutdated = false)
    ∧ ((handleApplySuggestion sampleState sampleB (.error ())).text = sampleState.text
      ∧ (handleApplySuggestion sampleState sampleB (.error ())).suggestionQueue
          = sampleState.suggestionQueue
      ∧ (handleApplySuggestion sampleState sampleB (.error ())).suggestions
          = sampleState.suggestions
      ∧ (handleApplySuggestion sampleState sampleB (.error ())).selectedSuggestion
          = some sampleB
      ∧ sampleB.isOutdated = false) :=
  ⟨⟨rfl, rfl⟩,
    applySuggestion_failure_no_state_change sampleState sampleB rfl rfl⟩

/-- A state whose selected suggestion belongs to daemon 1, with a
daemon-2 suggestion also queued. -/
def cexDeleteState : EngineState :=
  { sampleState with selectedSuggestion := some sampleA }

/-- Counterexample to C6 as stated: deleting daemon 1 while its suggestion
is selected leaves a nonempty queue `[sampleB]` yet the selection becomes
null, not the new first member. -/
theorem deleteDaemon_selection_not_first_cex :
    (deleteDaemonSuccess cexDeleteState 1).suggestionQueue = [sampleB]
    ∧ (deleteDaemonSuccess cexDeleteState 1).selectedSuggestion = none
    ∧ (deleteDaemonSuccess cexDeleteState 1).selectedSuggestion ≠ some sampleB := by
  refine ⟨by decide, by decide, by decide⟩

/-- C6 (amended): deleting daemon `d` removes from the queue exactly the
suggestions whose `daemonId` equals `d` (order preserved); if the selected
suggestion's `daemonId` equals `d`, the selection becomes null (even when
the queue remains nonempty), and otherwise it is unchanged. -/
theorem deleteDaemon_cascade_and_selection (st : EngineState) (d : Nat) :
    (∀ s, s ∈ (deleteDaemonSuccess st d).suggestionQueue
        ↔ (s ∈ st.suggestionQueue ∧ s.daemonId ≠ d))
    ∧ List.Sublist (deleteDaemonSuccess st d).suggestionQueue st.suggestionQueue
    ∧ (∀ S, st.selectedSuggestion = some S → S.daemonId = d →
        (deleteDaemonSuccess st d).selectedSuggestion = none)
    ∧ (∀ S, st.selectedSuggestion = some S → S.daemonId ≠ d →
        (deleteDaemonSuccess st d).selectedSuggestion = some S) := by
  refine ⟨?_, ?_, ?_, ?_⟩
  · intro s
    simp [deleteDaemonSuccess, List.mem_filter]
  · exact List.filter_sublist _
  · intro S hS hd
    simp [deleteDaemonSuccess, hS, hd]
  · intro S hS hd
    simp [deleteDaemonSuccess, hS, hd]

/-- Witness for the amended C6: deleting the selected suggestion's daemon
nulls the selection at a concrete state. -/
theorem deleteDaemon_cascade_and_selection_witness :
    cexDeleteState.selectedSuggestion = some sampleA
    ∧ sampleA.daemonId = 1
    ∧ (deleteDaemonSuccess cexDeleteState 1).selectedSuggestion = none :=
  ⟨rfl, rfl, (deleteDaemon_cascade_and_selection cexDeleteState 1).2.2.1 sampleA rfl rfl⟩

/-- C7: rejecting and dismissing are the same pure local removal: the two
handlers produce identical states; the queue loses exactly the given
suggestion (first `oid` match erased, order preserved); the selection
becomes the new first member or null; and every remaining queue member is
one of the original objects, so no `isOutdated` flag changes. -/
theorem rejectSuggestion_eq_dismissSuggestion (st : EngineState) (S : Sugg)
    (hnd : (st.suggestionQueue.map Sugg.oid).Nodup) :
    handleRejectSuggestion st S = handleDismissSuggestion st S
    ∧ (handleRejectSuggestion st S).suggestionQueue
        = st.suggestionQueue.eraseP (fun s => s.oid == S.oid)
    ∧ (handleRejectSuggestion st S).selectedSuggestion
        = (st.suggestionQueue.eraseP (fun s => s.oid == S.oid)).head?
    ∧ (∀ s ∈ (handleRejectSuggestion st S).suggestionQueue, s ∈ st.suggestionQueue) := by
  have hfe := filter_ne_eq_eraseP st.suggestionQueue S.oid hnd
  refine ⟨rfl, ?_, ?_, ?_⟩
  · simp only [handleRejectSuggestion]
    exact hfe
  · simp only [handleRejectSuggestion]
    rw [match_head, hfe]
  · intro s hs
    simp only [handleRejectSuggestion] at hs
    exact List.mem_of_mem_filter hs

/-- Witness for C7 at a concrete two-member queue. -/
theorem rejectSuggestion_eq_dismissSuggestion_witness :
    (sampleState.suggestionQueue.map Sugg.oid).Nodup
    ∧ (handleRejectSuggestion sampleState sampleA = handleDismissSuggestion sampleState sampleA
      ∧ (handleRejectSuggestion sampleState sampleA).suggestionQueue
          = sampleState.suggestionQueue.eraseP (fun s => s.oid == sampleA.oid)
      ∧ (handleRejectSuggestion sampleState sampleA).selectedSuggestion
          = (sampleState.suggestionQueue.eraseP (fun s => s.oid == sampleA.oid)).head?
      ∧ (∀ s ∈ (handleRejectSuggestion sampleState sampleA).suggestionQueue,
          s ∈ sampleState.suggestionQueue)) :=
  ⟨by decide, rejectSuggestion_eq_dismissSuggestion sampleState sampleA (by decide)⟩

/-- Counterexample to C10 as stated: after a `NotFound` delete of daemon 1
the notice is surfaced, but the cascade did not run — daemon 1's
suggestion is still in the queue. -/
theorem deleteDaemon_notFound_no_cascade_cex :
    sampleA.daemonId = 1
    ∧ sampleA ∈ (deleteDaemonNotFound sampleState 1).suggestionQueue
    ∧ (deleteDaemonNotFound sampleState 1).deleteError = true := by
  refine ⟨rfl, by decide, rfl⟩

/-- C10 (amended): on a `NotFound` delete, a non-fatal user-visible notice
is surfaced and no local suggestion state is removed: queue, `suggestions`,
selection and text are all untouched (the cascade-removal does not run). -/
theorem deleteDaemon_notFound_notice_only (st : EngineState) (d : Nat) :
    (deleteDaemonNotFound st d).deleteError = true
    ∧ (deleteDaemonNotFound st d).suggestionQueue = st.suggestionQueue
    ∧ (deleteDaemonNotFound st d).suggestions = st.suggestions
    ∧ (deleteDaemonNotFound st d).selectedSuggestion = st.selectedSuggestion
    ∧ (deleteDaemonNotFound st d).text = st.text :=
  ⟨rfl, rfl, rfl, rfl, rfl⟩

/-- A defined JS index access yields a list member. -/
theorem jsIndex_mem (l : List Sugg) (i : Int) (s : Sugg) (h : jsIndex l i = some s) :
    s ∈ l := by
  unfold jsIndex at h
  split at h
  · exact List.getElem?_mem h
  · simp at h

/-- `selInQueue` unfolded to a propositional form. -/
theorem selInQueue_iff (st : EngineState) :
    selInQueue st = true
      ↔ ∀ s, st.selectedSuggestion = some s → s ∈ st.suggestionQueue := by
  unfold selInQueue
  cases h : st.selectedSuggestion with
  | none => simp
  | some s => simp

/-- The head of a list is a member. -/
theorem hd_mem (l : List Sugg) (s : Sugg) (h : l.head? = some s) : s ∈ l := by
  cases l with
  | nil => simp at h
  | cons a t =>
    simp only [List.head?, Option.some.injEq] at h
    subst h
    exact List.mem_cons_self _ _

/-- Every engine event other than a highlight-click preserves the
selection-in-queue invariant. -/
theorem step_preserves_selInQueue (st : EngineState) (op : Op)
    (hop : op ≠ Op.highlightClick) (h : selInQueue st = true) :
    selInQueue (step st op) = true := by
  rw [selInQueue_iff] at h ⊢
  cases op with
  | request r =>
    intro s hs
    simp only [step, onSuggestionSuccess, Option.some.injEq] at hs
    subst hs
    simp [step, onSuggestionSuccess]
  | applyOk t =>
    intro s hs
    cases hsel : st.selectedSuggestion with
    | none =>
      simp only [step, hsel] at hs
      simp at hs
    | some S =>
      simp only [step, hsel, handleApplySuggestion] at hs ⊢
      split at hs
      · exact jsIndex_mem _ _ _ hs
      · simp at hs
  | applyErr =>
    intro s hs
    cases hsel : st.selectedSuggestion with
    | none =>
      simp only [step, hsel] at hs
      simp at hs
    | some S =>
      simp only [step, hsel, handleApplySuggestion] at hs ⊢
      injection hs with hs
      subst hs
      exact h _ hsel
  | reject =>
    intro s hs
    cases hsel : st.selectedSuggestion with
    | none =>
      simp only [step, hsel] at hs
      simp at hs
    | some S =>
      simp only [step, hsel, handleRejectSuggestion] at hs ⊢
      rw [match_head] at hs
      exact hd_mem _ _ hs
  | dismiss =>
    intro s hs
    cases hsel : st.selectedSuggestion with
    | none =>
      simp only [step, hsel] at hs
      simp at hs
    | some S =>
      simp only [step, hsel, handleDismissSuggestion] at hs ⊢
      rw [match_head] at hs
      exact hd_mem _ _ hs
  | deleteOk d =>
    intro s hs
    cases hsel : st.selectedSuggestion with
    | none =>
      simp only [step, deleteDaemonSuccess, hsel] at hs
      simp at hs
    | some S =>
      simp only [step, deleteDaemonSuccess, hsel] at hs ⊢
      by_cases hd : (S.daemonId == d) = true
      · rw [if_pos hd] at hs
        simp at hs
      · rw [if_neg hd] at hs
        injection hs with hs
        subst hs
        exact List.mem_filter.mpr ⟨h _ hsel, by simpa using hd⟩
  | deleteNotFound d =>
    intro s hs
    simp only [step, deleteDaemonNotFound] at hs ⊢
    exact h s hs
  | clear =>
    intro s hs
    simp only [step, clearHighlights] at hs
    simp at hs
  | navNext =>
    intro s hs
    cases hsel : st.selectedSuggestion with
    | none =>
      simp only [step, goToNextSuggestion, hsel] at hs
      simp at hs
    | some S =>
      by_cases hlen : st.suggestionQueue.length ≤ 1
      · simp only [step, goToNextSuggestion, hsel, if_pos hlen] at hs ⊢
        injection hs with hs
        subst hs
        exact h _ hsel
      · simp only [step, goToNextSuggestion, hsel, if_neg hlen] at hs ⊢
        exact jsIndex_mem _ _ _ hs
  | navPrev =>
    intro s hs
    cases hsel : st.selectedSuggestion with
    | none =>
      simp only [step, goToPreviousSuggestion, hsel] at hs
      simp at hs
    | some S =>
      by_cases hlen : st.suggestionQueue.length ≤ 1
      · simp only [step, goToPreviousSuggestion, hsel, if_pos hlen] at hs ⊢
        injection hs with hs
        subst hs
        exact h _ hsel
      · simp only [step, goToPreviousSuggestion, hsel, if_neg hlen] at hs ⊢
        exact jsIndex_mem _ _ _ hs
  | highlightClick => exact absurd rfl hop

/-- The invariant is preserved along any highlight-click-free event
sequence. -/
theorem runOps_preserves_selInQueue (st : EngineState) (ops : List Op)
    (hops : ∀ op ∈ ops, op ≠ Op.highlightClick) (h : selInQueue st = true) :
    selInQueue (runOps st ops) = true := by
  induction ops generalizing st with
  | nil => exact h
  | cons op rest ih =>
    exact ih (step st op) (fun o ho => hops o (List.mem_cons_of_mem _ ho))
      (step_preserves_selInQueue st op (hops op (List.mem_cons_self _ _)) h)

/-- The event sequence behind the C3 counterexample: two suggestions from
daemon 1, apply the second (remaining member is copied into both arrays
separately), then click the highlighted span (which looks the daemon up in
the `suggestions` array, not the queue). -/
def cexOps : List Op :=
  [.request ⟨1, some 0, some 1⟩, .request ⟨1, some 0, some 1⟩,
   .applyOk "new", .highlightClick]

/-- Counterexample to C3 as stated: after `cexOps` the selection is
non-null but is not a member (by identity) of the suggestion queue — the
highlight-click selected the stale copy living in the `suggestions`
array. -/
theorem selection_in_queue_cex :
    selInQueue (runOps (initState "sample") cexOps) = false
    ∧ (runOps (initState "sample") cexOps).selectedSuggestion ≠ none := by
  refine ⟨by decide, by decide⟩

/-- C3 (amended): in every state reachable from the initial state by
request-success, apply (success or failure), reject, dismiss,
daemon-delete (success or NotFound), clear and navigation events —
excluding highlight-clicks — a non-null selection is a member (by
identity) of the current suggestion queue. -/
theorem selection_in_queue_without_highlight_clicks (t : String) (ops : List Op)
    (hops : ∀ op ∈ ops, op ≠ Op.highlightClick) :
    selInQueue (runOps (initState t) ops) = true :=
  runOps_preserves_selInQueue (initState t) ops hops rfl

/-- Witness for the amended C3 on a concrete highlight-click-free event
sequence exercising request, apply and navigation. -/
theorem selection_in_queue_without_highlight_clicks_witness :
    (∀ op ∈ ([.request ⟨1, some 0, some 1⟩, .request ⟨2, some 2, some 3⟩,
        .applyOk "x", .navNext] : List Op), op ≠ Op.highlightClick)
    ∧ selInQueue (runOps (initState "sample")
        [.request ⟨1, some 0, some 1⟩, .request ⟨2, some 2, some 3⟩,
         .applyOk "x", .navNext]) = true :=
  ⟨by decide, selection_in_queue_without_highlight_clicks "sample" _ (by decide)⟩

/-- Re-setting the selection to its current value is the identity. -/
theorem with_sel_eta (st : EngineState) (v : Option Sugg)
    (h : st.selectedSuggestion = v) :
    { st with selectedSuggestion := v } = st := by
  cases st
  subst h
  rfl

/-- One `goToNextSuggestion` step from the member at position `j` selects
the member at position `(j+1) mod length`, touching nothing else. -/
theorem goToNext_spec (st : EngineState) (j : Nat) (S : Sugg)
    (hnd : (st.suggestionQueue.map Sugg.oid).Nodup)
    (h2 : ¬(st.suggestionQueue.length ≤ 1))
    (hq : st.suggestionQueue[j]? = some S)
    (hsel : st.selectedSuggestion = some S) :
    goToNextSuggestion st
      = { st with selectedSuggestion :=
            st.suggestionQueue[(j + 1) % st.suggestionQueue.length]? } := by
  have hfind : findIndexJS (fun s => s.oid == S.oid) st.suggestionQueue = (j : Int) := by
    unfold findIndexJS
    rw [findIdxAux_oid_eq _ j S hnd hq]
  unfold goToNextSuggestion
  rw [hsel]
  simp only [if_neg h2, hfind]
  have hcast : ((j : Int) + 1) % (st.suggestionQueue.length : Int)
      = (((j + 1) % st.suggestionQueue.length : Nat) : Int) := rfl
  have hpos : (0 : Int) ≤ ((j : Int) + 1) % (st.suggestionQueue.length : Int) := by
    apply Int.emod_nonneg
    omega
  unfold jsIndex
  rw [if_pos hpos]
  rw [hcast, Int.toNat_natCast]

/-- One `goToPreviousSuggestion` step from the member at position `j`
selects the member at the previous position, wrapping from 0 to the
last. -/
theorem goToPrev_spec (st : EngineState) (j : Nat) (S : Sugg)
    (hnd : (st.suggestionQueue.map Sugg.oid).Nodup)
    (h2 : ¬(st.suggestionQueue.length ≤ 1))
    (hq : st.suggestionQueue[j]? = some S)
    (hsel : st.selectedSuggestion = some S) :
    goToPreviousSuggestion st
      = { st with selectedSuggestion :=
            st.suggestionQueue[(if j = 0 then st.suggestionQueue.length - 1
              else j - 1)]? } := by
  have hfind : findIndexJS (fun s => s.oid == S.oid) st.suggestionQueue = (j : Int) := by
    unfold findIndexJS
    rw [findIdxAux_oid_eq _ j S hnd hq]
  unfold goToPreviousSuggestion
  rw [hsel]
  simp only [if_neg h2, hfind]
  by_cases hj : j = 0
  · subst hj
    have e1 : (((0 : Nat) : Int) == 0) = true := by decide
    rw [if_pos e1, if_pos rfl]
    have hcast : (st.suggestionQueue.length : Int) - 1
        = ((st.suggestionQueue.length - 1 : Nat) : Int) := by
      push_cast [Nat.cast_sub (by omega : 1 ≤ st.suggestionQueue.length)]
      ring
    unfold jsIndex
    rw [if_pos (by omega)]
    rw [hcast, Int.toNat_natCast]
  · have e1 : ¬(((j : Nat) : Int) == 0) = true := by
      simp
      omega
    rw [if_neg e1, if_neg hj]
    have hcast : ((j : Nat) : Int) - 1 = ((j - 1 : Nat) : Int) := by
      push_cast [Nat.cast_sub (by omega : 1 ≤ j)]
      ring
    unfold jsIndex
    rw [if_pos (by omega)]
    rw [hcast, Int.toNat_natCast]
/-- Iterating `goToNextSuggestion` walks the queue cyclically. -/
theorem iterate_next_spec (st : EngineState) (i : Nat) (S : Sugg)
    (hnd : (st.suggestionQueue.map Sugg.oid).Nodup)
    (h2 : ¬(st.suggestionQueue.length ≤ 1))
    (hq : st.suggestionQueue[i]? = some S)
    (hsel : st.selectedSuggestion = some S) :
    ∀ k, goToNextSuggestion^[k] st
      = { st with selectedSuggestion :=
            st.suggestionQueue[(i + k) % st.suggestionQueue.length]? } := by
  have hi : i < st.suggestionQueue.length := getElem?_lt_length _ _ _ hq
  intro k
  induction k with
  | zero =>
    simp only [Function.iterate_zero, id_eq]
    rw [show (i + 0) % st.suggestionQueue.length = i from by
      rw [Nat.add_zero]; exact Nat.mod_eq_of_lt hi]
    exact (with_sel_eta st _ (hsel.trans hq.symm)).symm
  | succ k ih =>
    rw [Function.iterate_succ_apply', ih]
    have hjk : (i + k) % st.suggestionQueue.length < st.suggestionQueue.length :=
      Nat.mod_lt _ (by omega)
    have hq1 : st.suggestionQueue[(i + k) % st.suggestionQueue.length]?
        = some (st.suggestionQueue.get ⟨(i + k) % st.suggestionQueue.length, hjk⟩) :=
      List.getElem?_eq_getElem hjk
    have hstep := goToNext_spec
      { st with selectedSuggestion :=
          st.suggestionQueue[(i + k) % st.suggestionQueue.length]? }
      ((i + k) % st.suggestionQueue.length)
      (st.suggestionQueue.get ⟨(i + k) % st.suggestionQueue.length, hjk⟩)
      hnd h2 hq1 hq1
    rw [hstep]
    rw [show ((i + k) % st.suggestionQueue.length + 1) % st.suggestionQueue.length
        = (i + (k + 1)) % st.suggestionQueue.length from by
      rw [Nat.mod_add_mod]
      ring_nf]

/-- C8: for a queue of at least two members with the member at position
`i` selected, `previous` after `next` and `next` after `previous` restore
the whole state; `next` wraps from the last member to the first; `next`
iterated queue-length times returns to the starting selection; and both
navigations are no-ops when the selection is null or the queue has at
most one member. -/
theorem navigation_cycle (st : EngineState) (S : Sugg) (i : Nat)
    (hnd : (st.suggestionQueue.map Sugg.oid).Nodup)
    (h2 : 2 ≤ st.suggestionQueue.length)
    (hq : st.suggestionQueue[i]? = some S)
    (hsel : st.selectedSuggestion = some S) :
    goToPreviousSuggestion (goToNextSuggestion st) = st
    ∧ goToNextSuggestion (goToPreviousSuggestion st) = st
    ∧ (i + 1 = st.suggestionQueue.length →
        (goToNextSuggestion st).selectedSuggestion = st.suggestionQueue[0]?)
    ∧ (goToNextSuggestion^[st.suggestionQueue.length] st).selectedSuggestion = some S
    ∧ (∀ st2 : EngineState, st2.selectedSuggestion = none →
        goToNextSuggestion st2 = st2 ∧ goToPreviousSuggestion st2 = st2)
    ∧ (∀ st2 : EngineState, st2.suggestionQueue.length ≤ 1 →
        goToNextSuggestion st2 = st2 ∧ goToPreviousSuggestion st2 = st2) := by
  have h2' : ¬(st.suggestionQueue.length ≤ 1) := by omega
  have hi : i < st.suggestionQueue.length := getElem?_lt_length _ _ _ hq
  have hnext := goToNext_spec st i S hnd h2' hq hsel
  refine ⟨?_, ?_, ?_, ?_, ?_, ?_⟩
  · rw [hnext]
    have hj1 : (i + 1) % st.suggestionQueue.length < st.suggestionQueue.length :=
      Nat.mod_lt _ (by omega)
    have hq1 : st.suggestionQueue[(i + 1) % st.suggestionQueue.length]?
        = some (st.suggestionQueue.get ⟨(i + 1) % st.suggestionQueue.length, hj1⟩) :=
      List.getElem?_eq_getElem hj1
    rw [goToPrev_spec
      { st with selectedSuggestion :=
          st.suggestionQueue[(i + 1) % st.suggestionQueue.length]? }
      ((i + 1) % st.suggestionQueue.length)
      (st.suggestionQueue.get ⟨(i + 1) % st.suggestionQueue.length, hj1⟩)
      hnd h2' hq1 hq1]
    have hidx : (if (i + 1) % st.suggestionQueue.length = 0
        then st.suggestionQueue.length - 1
        else (i + 1) % st.suggestionQueue.length - 1) = i := by
      rcases Nat.lt_or_ge (i + 1) st.suggestionQueue.length with hlt | hge
      · rw [Nat.mod_eq_of_lt hlt]
        simp [Nat.succ_ne_zero]
      · have he : i + 1 = st.suggestionQueue.length := by omega
        rw [he, Nat.mod_self]
        simp
        omega
    rw [hidx]
    exact with_sel_eta st _ (hsel.trans hq.symm)
  · have hj2 : (if i = 0 then st.suggestionQueue.length - 1 else i - 1)
        < st.suggestionQueue.length := by
      split
      · omega
      · omega
    have hprev := goToPrev_spec st i S hnd h2' hq hsel
    rw [hprev]
    have hq2 : st.suggestionQueue[(if i = 0 then st.suggestionQueue.length - 1
          else i - 1)]?
        = some (st.suggestionQueue.get
            ⟨(if i = 0 then st.suggestionQueue.length - 1 else i - 1), hj2⟩) :=
      List.getElem?_eq_getElem hj2
    rw [goToNext_spec
      { st with selectedSuggestion :=
          st.suggestionQueue[(if i = 0 then st.suggestionQueue.length - 1
            else i - 1)]? }
      (if i = 0 then st.suggestionQueue.length - 1 else i - 1)
      (st.suggestionQueue.get
        ⟨(if i = 0 then st.suggestionQueue.length - 1 else i - 1), hj2⟩)
      hnd h2' hq2 hq2]
    have hidx : ((if i = 0 then st.suggestionQueue.length - 1 else i - 1) + 1)
        % st.suggestionQueue.length = i := by
      by_cases hz : i = 0
      · subst hz
        rw [if_pos rfl]
        rw [show st.suggestionQueue.length - 1 + 1 = st.suggestionQueue.length
          from by omega]
        exact Nat.mod_self _
      · rw [if_neg hz]
        rw [show i - 1 + 1 = i from by omega]
        exact Nat.mod_eq_of_lt hi
    rw [hidx]
    exact with_sel_eta st _ (hsel.trans hq.symm)
  · intro hlast
    rw [hnext]
    rw [show (i + 1) % st.suggestionQueue.length = 0 from by
      rw [hlast]; exact Nat.mod_self _]
  · rw [iterate_next_spec st i S hnd h2' hq hsel st.suggestionQueue.length]
    rw [show (i + st.suggestionQueue.length) % st.suggestionQueue.length = i from by
      rw [Nat.add_mod_right]; exact Nat.mod_eq_of_lt hi]
    exact hq.symm ▸ rfl
  · intro st2 hn
    constructor
    · unfold goToNextSuggestion
      rw [hn]
    · unfold goToPreviousSuggestion
      rw [hn]
  · intro st2 hlen
    constructor
    · cases hs2 : st2.selectedSuggestion with
      | none =>
        unfold goToNextSuggestion
        rw [hs2]
      | some s2 => simp [goToNextSuggestion, hs2, hlen]
    · cases hs2 : st2.selectedSuggestion with
      | none =>
        unfold goToPreviousSuggestion
        rw [hs2]
      | some s2 => simp [goToPreviousSuggestion, hs2, hlen]

/-- Witness for C8 on a concrete two-member queue with the second member
selected. -/
theorem navigation_cycle_witness :
    ((sampleState.suggestionQueue.map Sugg.oid).Nodup
      ∧ 2 ≤ sampleState.suggestionQueue.length
      ∧ sampleState.suggestionQueue[1]? = some sampleB
      ∧ sampleState.selectedSuggestion = some sampleB)
    ∧ (goToPreviousSuggestion (goToNextSuggestion sampleState) = sampleState
      ∧ goToNextSuggestion (goToPreviousSuggestion sampleState) = sampleState
      ∧ (1 + 1 = sampleState.suggestionQueue.length →
          (goToNextSuggestion sampleState).selectedSuggestion
            = sampleState.suggestionQueue[0]?)
      ∧ (goToNextSuggestion^[sampleState.suggestionQueue.length]
            sampleState).selectedSuggestion = some sampleB
      ∧ (∀ st2 : EngineState, st2.selectedSuggestion = none →
          goToNextSuggestion st2 = st2 ∧ goToPreviousSuggestion st2 = st2)
      ∧ (∀ st2 : EngineState, st2.suggestionQueue.length ≤ 1 →
          goToNextSuggestion st2 = st2 ∧ goToPreviousSuggestion st2 = st2)) :=
  ⟨⟨by decide, by decide, by decide, by decide⟩,
    navigation_cycle sampleState sampleB 1 (by decide) (by decide) (by decide)
      (by decide)⟩

/-- The `disabled` attribute of the Fix button: the source sets
`disabled={selectedSuggestion.is_outdated}` — the button is disabled only
when the selected suggestion is outdated, never while an apply is in
flight (`loading` does not appear in the attribute). -/
def fixButtonDisabled (st : EngineState) : Bool :=
  match st.selectedSuggestion with
  | none => true
  | some s => s.isOutdated

/-- A state in which an apply request is already in flight (`loading` set
by the start of `handleApplySuggestion`) on the selected, still-pending
suggestion. -/
def inFlightState : EngineState :=
  { sampleState with loading := true }

/-- C9 evidence: while an apply on the selected pending suggestion is in
flight, the Fix button is still enabled, and a second
`handleApplySuggestion` invocation on the same suggestion runs the full
rewrite path again — the document is mutated a second time (`"x"` then
`"y"`); nothing rejects or ignores the duplicate call. -/
theorem applySuggestion_reentrant_double_mutation :
    inFlightState.loading = true
    ∧ fixButtonDisabled inFlightState = false
    ∧ (handleApplySuggestion inFlightState sampleB (.ok "x")).text = "x"
    ∧ (handleApplySuggestion (handleApplySuggestion inFlightState sampleB (.ok "x"))
        sampleB (.ok "y")).text = "y" :=
  ⟨rfl, rfl, rfl, rfl⟩
